import Mathlib

/-!
Shallow embedding of the round engine of the music-guessing game
(`src/src/components/GamePlayer.tsx` and `src/src/App.tsx`).

Real-valued JavaScript numbers are modelled as rationals (`ℚ`);
`Math.round` is modelled by `jsRound`, `Math.floor` by `Int.floor`
composed with `Int.toNat` where it produces an array index, and
`Math.random()` by a rational parameter `rand` with `0 ≤ rand < 1`.
External collaborators (the Spotify player, the similarity helper,
the validators) appear as parameters or, when a claim is about them
and their code is outside `src/`, as definitions modelled from the
spec's own words.
-/

namespace QwTrack

/-- An artist entry of a track (`SpotifyTrack.artists[i]`). -/
structure Artist where
  name : String
deriving DecidableEq, Repr

/-- A track as the round engine sees it (`SpotifyTrack`): stable id,
display title, ordered artist list. -/
structure Track where
  id : String
  name : String
  artists : List Artist
deriving DecidableEq, Repr

/-- Model of JavaScript's `Math.round`, which computes `⌊x + 0.5⌋`. -/
def jsRound (q : ℚ) : ℤ := ⌊q + 1/2⌋

/-- Time bonus inside `calculateScore`
(`GamePlayer.tsx` line 58): `Math.max(0, 1 - (timer / 30))`. -/
def timeBonus (timer : ℚ) : ℚ := max 0 (1 - timer / 30)

/-- Primary artist used by `calculateScore`
(`track.artists[0].name`); tracks reaching the engine have a non-empty
artist list, `headD` supplies a harmless default otherwise. -/
def primaryArtist (track : Track) : String :=
  (track.artists.headD { name := "" }).name

/-- Embedding of `calculateScore` from `GamePlayer.tsx` lines 54–64,
parametrised by the external similarity function `sim`
(`calculateSimilarity`): returns the rounded score and the
correctness flag. -/
def calculateScore (sim : String → String → ℚ)
    (titleGuess artistGuess : String) (track : Track) (timer : ℚ) :
    ℤ × Bool :=
  let titleSimilarity := sim titleGuess track.name
  let artistSimilarity := sim artistGuess (primaryArtist track)
  let averageSimilarity := (titleSimilarity + artistSimilarity) / 2
  let score := jsRound ((averageSimilarity * 80 + timeBonus timer * 20) * 100)
  (score, decide (titleSimilarity > 0.8 ∧ artistSimilarity > 0.8))

/-- Embedding of `selectRandomTrack` from `App.tsx` lines 48–52: filter
out already-played ids, return `none` when nothing is left, otherwise
index by `Math.floor(Math.random() * length)` with `Math.random()`
modelled by the rational `rand`. -/
def selectRandomTrack (playedTracks : List String) (rand : ℚ)
    (tracks : List Track) : Option Track :=
  let availableTracks := tracks.filter fun track => !playedTracks.contains track.id
  if availableTracks.length = 0 then none
  else availableTracks[(⌊rand * availableTracks.length⌋).toNat]?

/-- JavaScript `Set` insertion (`new Set([...prev, track.id])`): keeps
the existing members and adds the new id when absent. -/
def setInsert (x : String) (xs : List String) : List String :=
  if xs.contains x then xs else xs ++ [x]

/-- Local reactive state of the `GamePlayer` component: `timer`,
`isGuessing`, `titleGuess`, `artistGuess`, `result`, plus whether the
repeating tick interval is currently registered (`intervalRef`). -/
structure GameState where
  timer : ℚ
  isGuessing : Bool
  titleGuess : String
  artistGuess : String
  result : Option (ℤ × Bool)
  intervalActive : Bool
deriving DecidableEq, Repr

/-- Effect of a track change (`GamePlayer.tsx` lines 22–31): the effect
body only asks the external player to start the new track, and its
cleanup clears any pending interval; none of the round state fields
(timer, guesses, result, guessing flag) is touched. -/
def trackChangeEffect (s : GameState) : GameState :=
  { s with intervalActive := false }

/-- Condition under which the timer effect (`GamePlayer.tsx` lines
33–47) registers the repeating interval: `isPlaying && !isGuessing &&
!result`. -/
def intervalShouldRun (isPlaying : Bool) (s : GameState) : Bool :=
  isPlaying && !s.isGuessing && s.result.isNone

/-- Events that drive the `GamePlayer` state within one round: a 100ms
interval tick (under the current `isPlaying` signal), the
pause-and-guess handler, and the guess submission. -/
inductive RoundEvent where
  | tick (isPlaying : Bool)
  | pauseAndGuess
  | submitGuess (sim : String → String → ℚ) (track : Track)

/-- Small-step semantics of one round of `GamePlayer`: a tick adds 0.1s
to the timer exactly when the interval condition holds (lines 33–40);
`handlePauseAndGuess` sets the guessing flag (line 51);
`handleSubmitGuess` stores the computed result (lines 66–70). -/
def roundStep : RoundEvent → GameState → GameState
  | .tick p, s =>
      if intervalShouldRun p s then { s with timer := s.timer + 1/10 } else s
  | .pauseAndGuess, s => { s with isGuessing := true }
  | .submitGuess sim track, s =>
      { s with
        result := some (calculateScore sim s.titleGuess s.artistGuess track s.timer) }

/-- Run a sequence of round events from a starting state. -/
def runRound (evs : List RoundEvent) (s : GameState) : GameState :=
  evs.foldl (fun st e => roundStep e st) s

/-- Observable steps of `handlePauseAndGuess` (`GamePlayer.tsx` lines
49–52): the pause request is issued, awaited, and only then is the
guessing flag set. -/
inductive PauseEvent where
  | pauseRequested
  | pauseCompleted
  | guessingSet
deriving DecidableEq, Repr

/-- Trace of `handlePauseAndGuess`: `await togglePlayback();
setIsGuessing(true);` — the `await` places the completion of the
asynchronous pause request before the guessing flag is set. -/
def handlePauseAndGuessTrace : List PauseEvent :=
  [.pauseRequested, .pauseCompleted, .guessingSet]

/-- Combined per-round component state and the session-level set of
already-played track ids (`playedTracks` lives in `App`). -/
structure SessionState where
  game : GameState
  playedTracks : List String
deriving DecidableEq, Repr

/-- Embedding of `handlePlayAgain` from `GamePlayer.tsx` lines 72–80:
reset timer, guessing flag, both guesses and the result; the played
set is owned by `App` and is not touched here. -/
def handlePlayAgain (s : SessionState) : SessionState :=
  { s with
    game := { s.game with
              timer := 0, isGuessing := false,
              titleGuess := "", artistGuess := "", result := none } }

/-- A playlist as `handlePlaylistSelect` consumes it: id plus the
reported `tracks.total` count. -/
structure Playlist where
  id : String
  tracksTotal : ℕ
deriving DecidableEq, Repr

/-- Application-level state of `App.tsx` relevant to playlist
selection. -/
structure AppState where
  currentTrack : Option Track
  error : Option String
  currentPlaylist : Option Playlist
  playedTracks : List String
deriving DecidableEq, Repr

/-- Embedding of `handlePlaylistSelect` from `App.tsx` lines 54–90.
`validateTrack` stands for the external validator, `rand` for
`Math.random()`, and `fetchResult` for the (possibly failing) awaited
`getPlaylistTracks` call with its items already projected to tracks. -/
def handlePlaylistSelect (validateTrack : Track → Bool) (rand : ℚ)
    (playlist : Playlist) (fetchResult : Except Unit (List Track))
    (s : AppState) : AppState :=
  let s := { s with error := none, currentPlaylist := some playlist }
  if playlist.tracksTotal = 0 then
    { s with error := some "This playlist is empty", currentTrack := none }
  else
    match fetchResult with
    | .error _ =>
        { s with error := some "Failed to load tracks from this playlist",
                 currentTrack := none }
    | .ok items =>
        let validTracks := items.filter validateTrack
        if validTracks.length = 0 then
          { s with error := some "No playable tracks found in this playlist",
                   currentTrack := none }
        else
          match selectRandomTrack s.playedTracks rand validTracks with
          | none =>
              { s with error := some "You have played all tracks in this playlist!",
                       currentTrack := none }
          | some track =>
              { s with playedTracks := setInsert track.id s.playedTracks,
                       currentTrack := some track }

/-- Edit (Levenshtein) distance on character lists. -/
def editDistance : List Char → List Char → ℕ
  | [], ys => ys.length
  | x :: xs, [] => (x :: xs).length
  | x :: xs, y :: ys =>
      if x = y then editDistance xs ys
      else 1 + min (editDistance xs ys)
                   (min (editDistance (x :: xs) ys) (editDistance xs (y :: ys)))
termination_by xs ys => xs.length + ys.length
decreasing_by all_goals (simp; try omega)

/-- Removal of leading and trailing whitespace from a character list
(the behaviour of `String.trim`). -/
def trimChars (l : List Char) : List Char :=
  ((l.dropWhile Char.isWhitespace).reverse.dropWhile Char.isWhitespace).reverse

/-- Normalization applied identically to both similarity arguments:
trimming of leading/trailing whitespace and case folding (spec §4.1). -/
def normalizeText (s : String) : List Char :=
  (trimChars s.data).map Char.toLower

/-- Modelled from the spec: the repository's `calculateSimilarity`
(`src/utils/similarity.ts`) is not under `src/`; per §4.1 it is a
normalized edit distance between case-folded, trimmed forms of the two
strings, applied identically to both arguments, yielding a value in
[0,1] with 1 for a perfect match after normalization. -/
def calculateSimilarity (a b : String) : ℚ :=
  let na := normalizeText a
  let nb := normalizeText b
  if na.length = 0 ∧ nb.length = 0 then 1
  else 1 - (editDistance na nb : ℚ) / max na.length nb.length

end QwTrack

namespace QwTrack

/-- Helper: the edit distance of a list with itself is zero. -/
theorem editDistance_self (l : List Char) : editDistance l l = 0 := by
  induction l with
  | nil => simp [editDistance]
  | cons x xs ih => simp [editDistance, ih]

/-- Helper: two strings equal after normalization have similarity 1. -/
theorem calculateSimilarity_eq_one_of_normalize_eq {a b : String}
    (h : normalizeText a = normalizeText b) : calculateSimilarity a b = 1 := by
  unfold calculateSimilarity
  rw [h]
  simp [editDistance_self]

/-- Helper: `setInsert` preserves the existing members. -/
theorem mem_setInsert_of_mem {x y : String} {xs : List String} (h : y ∈ xs) :
    y ∈ setInsert x xs := by
  unfold setInsert
  split
  · exact h
  · exact List.mem_append_left _ h

/-- Helper: `setInsert` really inserts the new id. -/
theorem contains_setInsert_self (x : String) (xs : List String) :
    (setInsert x xs).contains x = true := by
  rw [List.elem_iff]
  unfold setInsert
  split
  · rw [← List.elem_iff]
    assumption
  · exact List.mem_append_right _ (List.mem_singleton.mpr rfl)

/-- Helper: `handlePlaylistSelect` never removes an id from the played
set. -/
theorem handlePlaylistSelect_playedTracks_mono
    (validate : Track → Bool) (rand : ℚ) (playlist : Playlist)
    (fetchResult : Except Unit (List Track)) (app : AppState) :
    ∀ id ∈ app.playedTracks,
      id ∈ (handlePlaylistSelect validate rand playlist fetchResult app).playedTracks := by
  intro i hi
  unfold handlePlaylistSelect
  split
  · exact hi
  · cases fetchResult with
    | error e => exact hi
    | ok items =>
        simp only
        split
        · exact hi
        · split
          · exact hi
          · exact mem_setInsert_of_mem hi

/-- Helper: a single round step keeps the guessing flag set and, once
guessing, leaves the timer untouched. -/
theorem roundStep_guessing_frozen (e : RoundEvent) (s : GameState)
    (h : s.isGuessing = true) :
    (roundStep e s).isGuessing = true ∧ (roundStep e s).timer = s.timer := by
  cases e with
  | tick p => simp [roundStep, intervalShouldRun, h]
  | pauseAndGuess => simp [roundStep]
  | submitGuess sim track => simp [roundStep, h]

/-- Helper: over any suffix of a round, a state that is already
guessing stays guessing and its timer is frozen. -/
theorem runRound_guessing_frozen (evs : List RoundEvent) (s : GameState)
    (h : s.isGuessing = true) :
    (runRound evs s).isGuessing = true ∧ (runRound evs s).timer = s.timer := by
  induction evs generalizing s with
  | nil => exact ⟨h, rfl⟩
  | cons e evs ih =>
      have hstep := roundStep_guessing_frozen e s h
      have := ih (roundStep e s) hstep.1
      exact ⟨this.1, by rw [runRound] at *; simpa [hstep.2] using this.2⟩

/-- Helper: the floor-of-random index is in bounds for a non-empty
list whenever the random draw lies in [0,1). -/
theorem floorIndex_lt (rand : ℚ) (n : ℕ) (h0 : 0 ≤ rand) (h1 : rand < 1)
    (hn : n ≠ 0) : (⌊rand * n⌋).toNat < n := by
  have hn1 : (1:ℚ) ≤ (n:ℚ) := by exact_mod_cast Nat.one_le_iff_ne_zero.mpr hn
  have hlt : rand * n < n := by nlinarith
  have hfl : ⌊rand * (n:ℚ)⌋ < (n:ℤ) := Int.floor_lt.mpr (by exact_mod_cast hlt)
  have hge : 0 ≤ ⌊rand * (n:ℚ)⌋ := Int.floor_nonneg.mpr (by positivity)
  omega

/-- C1: `calculateScore` computes the score as
`round((avgSim * 80 + timeBonus * 20) * 100)` with
`avgSim = (titleSim + artistSim)/2` and
`timeBonus = max(0, 1 - t/30)`, and sets `isCorrect` exactly when both
component similarities strictly exceed 0.8, so a component similarity
of exactly 0.8 yields `isCorrect = false`. -/
theorem calculateScore_matches_spec_formula :
    ∀ (sim : String → String → ℚ) (titleGuess artistGuess : String)
      (track : Track) (t : ℚ),
      calculateScore sim titleGuess artistGuess track t =
        (jsRound ((((sim titleGuess track.name + sim artistGuess (primaryArtist track)) / 2) * 80
            + max 0 (1 - t / 30) * 20) * 100),
         decide (sim titleGuess track.name > 0.8 ∧
                 sim artistGuess (primaryArtist track) > 0.8)) ∧
      ((sim titleGuess track.name = 0.8 ∨ sim artistGuess (primaryArtist track) = 0.8) →
        (calculateScore sim titleGuess artistGuess track t).2 = false) := by
  intro sim tg ag track t
  refine ⟨rfl, ?_⟩
  intro h
  rcases h with h | h <;> simp [calculateScore, h]

/-- Witness for C1: with both similarities pinned at exactly 0.8 the
correctness flag is false. -/
theorem calculateScore_matches_spec_formula_witness :
    (calculateScore (fun _ _ => (0.8:ℚ)) "bohemian" "queen"
        ⟨"id1", "Bohemian Rhapsody", [⟨"Queen"⟩]⟩ 2).2 = false :=
  (calculateScore_matches_spec_formula (fun _ _ => (0.8:ℚ)) "bohemian" "queen"
    ⟨"id1", "Bohemian Rhapsody", [⟨"Queen"⟩]⟩ 2).2 (Or.inl rfl)

/-- Counterexample for C2: a perfect guess at time 0 scores 10000,
which is outside the spec's claimed range of [0, 100]. -/
theorem score_can_exceed_100 :
    calculateScore (fun _ _ => 1) "Bohemian Rhapsody" "Queen"
        ⟨"id1", "Bohemian Rhapsody", [⟨"Queen"⟩]⟩ 0 = (10000, true) ∧
    ¬ ((10000:ℤ) ≤ 100) := by
  constructor
  · simp [calculateScore, jsRound, timeBonus, primaryArtist]
    norm_num
  · norm_num

/-- C2 (amended): for component similarities in [0,1] and non-negative
elapsed time, the rounded score is an integer between 0 and 10000
inclusive (the code multiplies the already-0-to-100-scaled sum by a
further factor of 100). -/
theorem calculateScore_bounded :
    ∀ (sim : String → String → ℚ) (titleGuess artistGuess : String)
      (track : Track) (t : ℚ),
      0 ≤ sim titleGuess track.name → sim titleGuess track.name ≤ 1 →
      0 ≤ sim artistGuess (primaryArtist track) →
      sim artistGuess (primaryArtist track) ≤ 1 →
      0 ≤ t →
      0 ≤ (calculateScore sim titleGuess artistGuess track t).1 ∧
      (calculateScore sim titleGuess artistGuess track t).1 ≤ 10000 := by
  intro sim tg ag track t h1 h2 h3 h4 ht
  have htb0 : 0 ≤ timeBonus t := le_max_left _ _
  have htb1 : timeBonus t ≤ 1 := by
    unfold timeBonus
    have h30 : 0 ≤ t / 30 := by positivity
    exact max_le (by norm_num) (by linarith)
  set a := sim tg track.name with ha
  set b := sim ag (primaryArtist track) with hb
  have hq0 : (0:ℚ) ≤ ((a + b) / 2 * 80 + timeBonus t * 20) * 100 := by nlinarith
  have hq1 : ((a + b) / 2 * 80 + timeBonus t * 20) * 100 ≤ 10000 := by nlinarith
  show 0 ≤ jsRound (((a + b) / 2 * 80 + timeBonus t * 20) * 100) ∧
       jsRound (((a + b) / 2 * 80 + timeBonus t * 20) * 100) ≤ 10000
  unfold jsRound
  constructor
  · exact Int.floor_nonneg.mpr (by linarith)
  · calc ⌊((a + b) / 2 * 80 + timeBonus t * 20) * 100 + 1/2⌋
        ≤ ⌊(10000:ℚ) + 1/2⌋ := Int.floor_le_floor (by linarith)
      _ = 10000 := by norm_num

/-- Witness for C2 (amended): the bound instantiated at a perfect
similarity and time 0. -/
theorem calculateScore_bounded_witness :
    0 ≤ (calculateScore (fun _ _ => 1) "a" "b" ⟨"t1", "a", [⟨"b"⟩]⟩ 0).1 ∧
    (calculateScore (fun _ _ => 1) "a" "b" ⟨"t1", "a", [⟨"b"⟩]⟩ 0).1 ≤ 10000 :=
  calculateScore_bounded (fun _ _ => 1) "a" "b" ⟨"t1", "a", [⟨"b"⟩]⟩ 0
    (by norm_num) (by norm_num) (by norm_num) (by norm_num) (by norm_num)

/-- C3: `selectRandomTrack` returns `none` exactly when every
candidate id is already played; a returned track is an unplayed member
of the candidate list; and with exactly one unplayed candidate it
deterministically returns that candidate. -/
theorem selectRandomTrack_draw_contract :
    ∀ (playedTracks : List String) (rand : ℚ) (tracks : List Track),
      0 ≤ rand → rand < 1 →
      (selectRandomTrack playedTracks rand tracks = none ↔
        ∀ t ∈ tracks, playedTracks.contains t.id = true) ∧
      (∀ t, selectRandomTrack playedTracks rand tracks = some t →
        t ∈ tracks ∧ playedTracks.contains t.id = false) ∧
      (∀ t, tracks.filter (fun tr => !playedTracks.contains tr.id) = [t] →
        selectRandomTrack playedTracks rand tracks = some t) := by
  intro played rand tracks h0 h1
  refine ⟨?_, ?_, ?_⟩
  · simp only [selectRandomTrack]
    split
    · rename_i hlen
      have hnil : tracks.filter (fun tr => !played.contains tr.id) = [] :=
        List.length_eq_zero.mp hlen
      simp only [true_iff]
      intro t ht
      have := List.filter_eq_nil_iff.mp hnil t ht
      simpa using this
    · rename_i hlen
      constructor
      · intro hcontra
        have hidx := floorIndex_lt rand _ h0 h1 hlen
        rw [List.getElem?_eq_none_iff] at hcontra
        omega
      · intro hall
        exact absurd (List.length_eq_zero.mpr
          (List.filter_eq_nil_iff.mpr (fun t ht => by simpa using hall t ht))) hlen
  · intro t h
    simp only [selectRandomTrack] at h
    split at h
    · exact absurd h (by simp)
    · have hmem := List.getElem?_mem h
      have := List.mem_filter.mp hmem
      exact ⟨this.1, by simpa using this.2⟩
  · intro t hft
    simp only [selectRandomTrack]
    rw [hft]
    have hfl : ⌊rand⌋ = 0 := Int.floor_eq_zero_iff.mpr ⟨h0, h1⟩
    simp [hfl]

/-- Witness for C3: with one of two candidates already played, the
draw deterministically returns the other one. -/
theorem selectRandomTrack_draw_contract_witness :
    (0:ℚ) ≤ 1/2 ∧ (1:ℚ)/2 < 1 ∧
    selectRandomTrack ["x"] (1/2) [⟨"x", "n", []⟩, ⟨"y", "m", []⟩] = some ⟨"y", "m", []⟩ :=
  ⟨by norm_num, by norm_num,
   (selectRandomTrack_draw_contract ["x"] (1/2) [⟨"x", "n", []⟩, ⟨"y", "m", []⟩]
      (by norm_num) (by norm_num)).2.2 ⟨"y", "m", []⟩ (by decide)⟩

/-- C4: the time bonus is 1 at 0s, 0 at 30s, clamped to 0 at 60s, and
monotonically non-increasing in elapsed time. -/
theorem timeBonus_clamped_monotone :
    timeBonus 0 = 1 ∧ timeBonus 30 = 0 ∧ timeBonus 60 = 0 ∧
    ∀ t1 t2 : ℚ, t1 ≤ t2 → timeBonus t2 ≤ timeBonus t1 := by
  refine ⟨by norm_num [timeBonus], by norm_num [timeBonus], by norm_num [timeBonus], ?_⟩
  intro t1 t2 h
  unfold timeBonus
  exact max_le_max le_rfl (by linarith)

/-- Witness for C4: monotonicity instantiated at times 1 and 2. -/
theorem timeBonus_clamped_monotone_witness :
    (1:ℚ) ≤ 2 ∧ timeBonus 2 ≤ timeBonus 1 :=
  ⟨by norm_num, timeBonus_clamped_monotone.2.2.2 1 2 (by norm_num)⟩

/-- Counterexample for C5: a new track arriving mid-Guessing with the
timer at 5s and a non-empty title guess leaves both values in place —
the track-change effect performs no reset. -/
theorem trackChange_no_reset_counterexample :
    (trackChangeEffect
        { timer := 5, isGuessing := true, titleGuess := "abba", artistGuess := "abba",
          result := none, intervalActive := true }).timer = 5 ∧
    (5:ℚ) ≠ 0 ∧
    (trackChangeEffect
        { timer := 5, isGuessing := true, titleGuess := "abba", artistGuess := "abba",
          result := none, intervalActive := true }).titleGuess = "abba" ∧
    "abba" ≠ "" := by
  refine ⟨rfl, by norm_num, rfl, by decide⟩

/-- C5 (amended): supplying a new track mid-round does not reset the
round state: the track-change effect preserves the timer, the guessing
flag, both guesses and the result, and only cancels the pending
interval (and restarts playback externally). -/
theorem trackChange_preserves_round_state :
    ∀ s : GameState,
      (trackChangeEffect s).timer = s.timer ∧
      (trackChangeEffect s).isGuessing = s.isGuessing ∧
      (trackChangeEffect s).titleGuess = s.titleGuess ∧
      (trackChangeEffect s).artistGuess = s.artistGuess ∧
      (trackChangeEffect s).result = s.result ∧
      (trackChangeEffect s).intervalActive = false :=
  fun _ => ⟨rfl, rfl, rfl, rfl, rfl, rfl⟩

/-- Counterexample for C6: in the pause-and-guess handler the guessing
flag is not set before the pause request completes. -/
theorem pauseAndGuess_not_before_completion :
    ¬ (handlePauseAndGuessTrace.indexOf PauseEvent.guessingSet <
       handlePauseAndGuessTrace.indexOf PauseEvent.pauseCompleted) := by decide

/-- C6 (amended): the pause-and-guess handler awaits the asynchronous
pause request, so the transition to Guessing happens strictly after
the pause completion, and the guessing transition does occur. -/
theorem pauseAndGuess_after_completion :
    handlePauseAndGuessTrace.indexOf PauseEvent.pauseCompleted <
      handlePauseAndGuessTrace.indexOf PauseEvent.guessingSet ∧
    PauseEvent.guessingSet ∈ handlePauseAndGuessTrace := by decide

/-- C7: the play-again reset clears both guesses to the empty string,
the timer to 0 and the result to absent, leaves the played set
untouched, and the subsequent caller-side redraw only ever grows the
played set, so every previously drawn id is still in it afterwards. -/
theorem playAgain_reset_frame :
    ∀ (s : SessionState),
      (handlePlayAgain s).game.timer = 0 ∧
      (handlePlayAgain s).game.titleGuess = "" ∧
      (handlePlayAgain s).game.artistGuess = "" ∧
      (handlePlayAgain s).game.result = none ∧
      (handlePlayAgain s).game.isGuessing = false ∧
      (handlePlayAgain s).playedTracks = s.playedTracks ∧
      ∀ (validate : Track → Bool) (rand : ℚ) (playlist : Playlist)
        (fetchResult : Except Unit (List Track)) (app : AppState),
        ∀ id ∈ app.playedTracks,
          id ∈ (handlePlaylistSelect validate rand playlist fetchResult app).playedTracks :=
  fun _ => ⟨rfl, rfl, rfl, rfl, rfl, rfl,
    fun validate rand playlist fetchResult app =>
      handlePlaylistSelect_playedTracks_mono validate rand playlist fetchResult app⟩

/-- Witness for C7: resetting from a scored state keeps the played set
intact, and a subsequent redraw retains the old id. -/
theorem playAgain_reset_frame_witness :
    (handlePlayAgain ⟨⟨7, true, "x", "y", some (3, true), true⟩, ["a"]⟩).playedTracks = ["a"] ∧
    "a" ∈ (handlePlaylistSelect (fun _ => true) 0 ⟨"p", 0⟩ (Except.ok [])
        { currentTrack := none, error := none, currentPlaylist := none,
          playedTracks := ["a"] }).playedTracks :=
  ⟨(playAgain_reset_frame ⟨⟨7, true, "x", "y", some (3, true), true⟩, ["a"]⟩).2.2.2.2.2.1,
   (playAgain_reset_frame ⟨⟨7, true, "x", "y", some (3, true), true⟩, ["a"]⟩).2.2.2.2.2.2
     (fun _ => true) 0 ⟨"p", 0⟩ (Except.ok [])
     { currentTrack := none, error := none, currentPlaylist := none, playedTracks := ["a"] }
     "a" (by decide)⟩

/-- C8: the tick interval runs exactly when playback is on, the round
is not guessing and no result exists; a tick under any other condition
leaves the timer unchanged; every round step is monotone in the timer;
and once guessing begins the guessing flag persists and the timer is
frozen for the rest of the round. -/
theorem timer_only_ticks_when_active :
    (∀ (p : Bool) (s : GameState),
       intervalShouldRun p s = true ↔ p = true ∧ s.isGuessing = false ∧ s.result = none) ∧
    (∀ (p : Bool) (s : GameState), intervalShouldRun p s = false →
       (roundStep (RoundEvent.tick p) s).timer = s.timer) ∧
    (∀ (e : RoundEvent) (s : GameState), s.timer ≤ (roundStep e s).timer) ∧
    (∀ (evs : List RoundEvent) (s : GameState), s.isGuessing = true →
       (runRound evs s).isGuessing = true ∧ (runRound evs s).timer = s.timer) := by
  refine ⟨?_, ?_, ?_, runRound_guessing_frozen⟩
  · intro p s
    simp [intervalShouldRun, Option.isNone_iff_eq_none, Bool.not_eq_true', and_assoc]
  · intro p s h
    simp [roundStep, h]
  · intro e s
    cases e with
    | tick p =>
        by_cases h : intervalShouldRun p s = true
        · simp [roundStep, h]
        · simp [roundStep, h]
    | pauseAndGuess => simp [roundStep]
    | submitGuess sim track => simp [roundStep]

/-- Witness for C8: a guessing state at 3s stays at 3s through a
playing tick followed by another pause request. -/
theorem timer_only_ticks_when_active_witness :
    intervalShouldRun false
        { timer := 3, isGuessing := false, titleGuess := "", artistGuess := "",
          result := none, intervalActive := false } = false ∧
    (runRound [RoundEvent.tick true, RoundEvent.pauseAndGuess]
        { timer := 3, isGuessing := true, titleGuess := "", artistGuess := "",
          result := none, intervalActive := true }).timer = 3 :=
  ⟨rfl,
   (timer_only_ticks_when_active.2.2.2 [RoundEvent.tick true, RoundEvent.pauseAndGuess]
     { timer := 3, isGuessing := true, titleGuess := "", artistGuess := "",
       result := none, intervalActive := true } rfl).2⟩

/-- C9: the modelled similarity is 1 on every non-empty string paired
with itself, and 1 on any two strings that agree after trimming
leading/trailing whitespace and case folding. -/
theorem similarity_normalization_properties :
    (∀ x : String, x ≠ "" → calculateSimilarity x x = 1) ∧
    (∀ a b : String, normalizeText a = normalizeText b → calculateSimilarity a b = 1) := by
  constructor
  · intro x _
    exact calculateSimilarity_eq_one_of_normalize_eq rfl
  · intro a b h
    exact calculateSimilarity_eq_one_of_normalize_eq h

/-- Witness for C9: reflexivity on "Queen" and whitespace/case
variants of "Queen". -/
theorem similarity_normalization_properties_witness :
    ("Queen" ≠ "" ∧ calculateSimilarity "Queen" "Queen" = 1) ∧
    (normalizeText "  Queen " = normalizeText "qUEEN" ∧
      calculateSimilarity "  Queen " "qUEEN" = 1) :=
  ⟨⟨by decide, similarity_normalization_properties.1 "Queen" (by decide)⟩,
   ⟨by decide, similarity_normalization_properties.2 "  Queen " "qUEEN" (by decide)⟩⟩

/-- C10: every completed run of `handlePlaylistSelect` ends in exactly
one of two outcomes: a current track with no error whose id is in the
played set, or no current track together with an error message. -/
theorem handlePlaylistSelect_exclusive_outcome :
    ∀ (validate : Track → Bool) (rand : ℚ) (playlist : Playlist)
      (fetchResult : Except Unit (List Track)) (s : AppState),
      Xor'
        (∃ t, (handlePlaylistSelect validate rand playlist fetchResult s).currentTrack = some t ∧
              (handlePlaylistSelect validate rand playlist fetchResult s).error = none ∧
              (handlePlaylistSelect validate rand playlist fetchResult s).playedTracks.contains t.id
                = true)
        ((handlePlaylistSelect validate rand playlist fetchResult s).currentTrack = none ∧
         (handlePlaylistSelect validate rand playlist fetchResult s).error ≠ none) := by
  intro validate rand playlist fetchResult s
  unfold handlePlaylistSelect
  split
  · exact Or.inr ⟨⟨rfl, by simp⟩, fun ⟨t, ht, _⟩ => by simp at ht⟩
  · cases fetchResult with
    | error e => exact Or.inr ⟨⟨rfl, by simp⟩, fun ⟨t, ht, _⟩ => by simp at ht⟩
    | ok items =>
        simp only
        split
        · exact Or.inr ⟨⟨rfl, by simp⟩, fun ⟨t, ht, _⟩ => by simp at ht⟩
        · split
          · exact Or.inr ⟨⟨rfl, by simp⟩, fun ⟨t, ht, _⟩ => by simp at ht⟩
          · rename_i track _
            exact Or.inl ⟨⟨track, rfl, rfl, contains_setInsert_self _ _⟩,
              fun ⟨hnone, _⟩ => by simp at hnone⟩

end QwTrack
